import Mathlib

/-!
Verification of the analytical core of the gas-tracker repository.

The development shallowly embeds the Go sources:
* `prices/prices.go` — the `PriceCategory` enumeration, its string
  conversion and (de)serialization, `CategorisePrice` and `PriceStats`;
* `tracker/tracker.go` — the DynamoDB-backed tracker: statistics
  (`calculateMean`, `calculateStdDev`, `getPriceStats`), the most-recent
  lookup (`getLastCategory`), window maintenance (`updateGasPrices`,
  `deleteOldestGasPrice`) and the per-cycle orchestration (`run`,
  embedded here as `runCycle`);
* `tracker.go` — the older file-backed variant, embedded in the
  `FileTracker` namespace (`appendToFile`, its statistics duplicates and
  its `run` orchestration, embedded as `runFileCycleCategory`).

Modelling conventions: Go `float64` arithmetic is idealized as real
arithmetic (`ℝ`, with `math.Sqrt` as `Real.sqrt`); `time.Time` values are
modelled by integers (only their total order is used); `int` prices are
`ℤ`.  Functions returning a Go `error` are embedded with `Except String`
(or, for `parsePriceCategory`, the literal Go value-and-error pair);
error-wrapping prefixes added by callers are elided except where a
theorem mentions the message.  External effects (HTTP fetch, DynamoDB
reads/writes, SMTP delivery, the clock) are inputs of the embedded
functions: the fetched price, the loaded window, the current timestamp
and the success of the notification delivery are parameters.
-/

namespace GasTracker

/-- Category enumeration from `prices/prices.go`; the Go constants are
`High = 0`, `Average = 1`, `Low = 2` (iota order). -/
inductive PriceCategory where
| High
| Average
| Low
deriving DecidableEq

/-- Underlying Go integer of each `PriceCategory` constant (iota order). -/
def categoryCode : PriceCategory → ℤ
| .High => 0
| .Average => 1
| .Low => 2

/-- The label returned by `PriceCategory.String` for each enumeration
constant. -/
def categoryLabel : PriceCategory → String
| .High => "High"
| .Average => "Average"
| .Low => "Low"

/-- Embeds `PriceCategory.String` (prices.go) at the level of the
underlying Go integer: the switch maps the three constants to their
labels and panics on any other integer; the panic is modelled by
`none`. -/
def priceCategoryString (p : ℤ) : Option String :=
  if p = 0 then some "High"
  else if p = 1 then some "Average"
  else if p = 2 then some "Low"
  else none

/-- Embeds `parsePriceCategory` (prices.go).  The Go function returns a
`(PriceCategory, error)` pair: on an unmapped label it returns the pair
`(Average, error)`, and the caller is expected to check the error. -/
def parsePriceCategory (input : String) : PriceCategory × Option String :=
  if input = "High" then (.High, none)
  else if input = "Average" then (.Average, none)
  else if input = "Low" then (.Low, none)
  else (.Average, some "unexpected price category")

/-- Embeds `PriceCategory.UnmarshalDynamoDBAttributeValue` (prices.go).
The attribute's string field `av.S` is an `Option String`; `p` is the
value the target `*PriceCategory` holds before the call.  The result is
the pair of the value held after the call and the returned error: the
target is assigned only when parsing succeeds. -/
def UnmarshalDynamoDBAttributeValue (s : Option String) (p : PriceCategory) :
    PriceCategory × Option String :=
  match s with
  | none => (p, none)
  | some str =>
    match parsePriceCategory str with
    | (val, none) => (val, none)
    | (_, some e) => (p, some e)

/-- Embeds `PriceStats` (prices.go); float64 fields idealized as reals. -/
structure PriceStats where
  Mean : ℝ
  Stddev : ℝ

/-- Embeds `CategorisePrice` (prices.go): strict one-standard-deviation
band comparisons, checking Low first, then High, else Average. -/
noncomputable def CategorisePrice (price : ℤ) (stats : PriceStats) : PriceCategory :=
  if (price : ℝ) < stats.Mean - stats.Stddev then .Low
  else if (price : ℝ) > stats.Mean + stats.Stddev then .High
  else .Average

/-- Embeds `GasPriceData` (prices.go): one sample. -/
structure GasPriceData where
  Price : ℤ
  Timestamp : ℤ
  Category : PriceCategory

/-- Embeds the `maxNumGasPrices` constant (7 days at one sample/hour). -/
def maxNumGasPrices : ℕ := 7 * 24

/-- Embeds `calculateMean` (tracker/tracker.go): running sum over the
slice, divided by its length. -/
noncomputable def calculateMean (gasPrices : List GasPriceData) : ℝ :=
  (gasPrices.foldl (fun sum d => sum + (d.Price : ℝ)) 0) / (gasPrices.length : ℝ)

/-- Embeds `calculateStdDev` (tracker/tracker.go): `0.0` for a
single-element slice, otherwise the square root of the sum of squared
deviations from `mean` divided by `len - 1` (the subtraction happens on
the Go `int` before conversion, hence the `ℤ` cast). -/
noncomputable def calculateStdDev (gasPrices : List GasPriceData) (mean : ℝ) : ℝ :=
  if gasPrices.length = 1 then 0
  else
    Real.sqrt
      ((gasPrices.foldl (fun s d => s + ((d.Price : ℝ) - mean) * ((d.Price : ℝ) - mean)) 0) /
        (((gasPrices.length : ℤ) - 1 : ℤ) : ℝ))

/-- Embeds `getPriceStats` (tracker/tracker.go): errors on an empty
slice, otherwise packages mean and standard deviation. -/
noncomputable def getPriceStats (gasPrices : List GasPriceData) : Except String PriceStats :=
  if gasPrices.length = 0 then .error "no gas prices"
  else .ok ⟨calculateMean gasPrices, calculateStdDev gasPrices (calculateMean gasPrices)⟩

/-- One iteration of the scan inside `getLastCategory`
(tracker/tracker.go): the `lastPrice` accumulator is replaced exactly
when the current element's timestamp is strictly after the
accumulator's (ties keep the first encountered element). -/
def mostRecentStep (acc : Option GasPriceData) (d : GasPriceData) : Option GasPriceData :=
  match acc with
  | none => some d
  | some lastPrice => if lastPrice.Timestamp < d.Timestamp then some d else acc

/-- The scan of `getLastCategory` (tracker/tracker.go): the most recent
sample of the slice, `none` when it is empty. -/
def mostRecent (gasPrices : List GasPriceData) : Option GasPriceData :=
  gasPrices.foldl mostRecentStep none

/-- Embeds `getLastCategory` (tracker/tracker.go): the category of the
most recent sample, or `none` for an empty slice. -/
def getLastCategory (gasPrices : List GasPriceData) : Option PriceCategory :=
  (mostRecent gasPrices).map (fun d => d.Category)

/-- The notification condition of `run` (tracker/tracker.go line 87):
`category != prices.Average && lastCategory != nil && category != *lastCategory`. -/
def shouldNotify (category : PriceCategory) (lastCategory : Option PriceCategory) : Bool :=
  (category != .Average) && lastCategory.isSome && (some category != lastCategory)

/-- One iteration of the scan inside `deleteOldestGasPrice`
(tracker/tracker.go): the `oldestGasPrice` accumulator is replaced
exactly when the current element's timestamp is strictly before the
accumulator's (ties keep the first encountered element). -/
def oldestStep (acc : Option GasPriceData) (d : GasPriceData) : Option GasPriceData :=
  match acc with
  | none => some d
  | some oldest => if d.Timestamp < oldest.Timestamp then some d else acc

/-- The scan of `deleteOldestGasPrice` (tracker/tracker.go): the oldest
sample of the slice, `none` when it is empty. -/
def findOldest (gasPrices : List GasPriceData) : Option GasPriceData :=
  gasPrices.foldl oldestStep none

/-- Deletion of a DynamoDB item by its `timestamp` key, modelled on the
window list: removes the first element carrying the key (the table key
is unique, so at most one item ever matches). -/
def deleteByTimestamp (ts : ℤ) : List GasPriceData → List GasPriceData
| [] => []
| d :: rest => if d.Timestamp = ts then rest else d :: deleteByTimestamp ts rest

/-- Embeds `deleteOldestGasPrice` (tracker/tracker.go): find the sample
with the smallest timestamp and delete the item with that key; errors
when the slice is empty. -/
def deleteOldestGasPrice (gasPrices : List GasPriceData) : Except String (List GasPriceData) :=
  match findOldest gasPrices with
  | none => .error "could not find oldest gas price"
  | some oldest => .ok (deleteByTimestamp oldest.Timestamp gasPrices)

/-- Embeds `updateGasPrices` (tracker/tracker.go) as a transformation of
the stored window: when the loaded window has reached capacity the
oldest item is deleted, then the new sample is written. -/
def updateGasPrices (gasPrices : List GasPriceData) (currGasPrice : GasPriceData) :
    Except String (List GasPriceData) :=
  if maxNumGasPrices ≤ gasPrices.length then
    match deleteOldestGasPrice gasPrices with
    | .error e => .error e
    | .ok remaining => .ok (remaining ++ [currGasPrice])
  else .ok (gasPrices ++ [currGasPrice])

/-- Observable outcome of one execution cycle of the DynamoDB tracker:
the terminal error if any, whether the notification was sent, and the
window that was persisted (`none` when the cycle aborted before the
append/persist step). -/
structure CycleResult where
  err : Option String
  notified : Bool
  persisted : Option (List GasPriceData)

/-- Embeds `run` (tracker/tracker.go lines 69 to 106) from the point the
window has been read: compute statistics over the loaded window,
classify the fetched price, notify on a category transition (an early
error return when delivery fails), then append and persist the new
sample.  `gas` is the fetched price, `now` the clock reading and
`notifyOk` whether SMTP delivery succeeds. -/
noncomputable def runCycle (gasPrices : List GasPriceData) (gas now : ℤ)
    (notifyOk : Bool) : CycleResult :=
  match getPriceStats gasPrices with
  | .error e => ⟨some e, false, none⟩
  | .ok stats =>
    let category := CategorisePrice gas stats
    let fired := shouldNotify category (getLastCategory gasPrices)
    if fired && !notifyOk then
      ⟨some "while notifying of price category change", false, none⟩
    else
      match updateGasPrices gasPrices ⟨gas, now, category⟩ with
      | .error e => ⟨some e, fired, none⟩
      | .ok newPrices => ⟨none, fired, some newPrices⟩

namespace FileTracker

/-- Embeds `gasPriceData` (tracker.go, file-backed variant): a sample
without a stored category. -/
structure gasPriceData where
  Price : ℤ
  Timestamp : ℤ

/-- Embeds the window transformation of `appendToFile` (tracker.go lines
123 to 139): append the new observation, then, when over capacity, keep
only the last `maxNumGasPrices` entries (dropping from the front). -/
def appendToFile (gasPrices : List gasPriceData) (newGasPrice now : ℤ) : List gasPriceData :=
  let appended := gasPrices ++ [⟨newGasPrice, now⟩]
  if maxNumGasPrices < appended.length then
    appended.drop (appended.length - maxNumGasPrices)
  else appended

/-- Embeds `priceStats` (tracker.go, file-backed variant). -/
structure priceStats where
  mean : ℝ
  stddev : ℝ

/-- Embeds `calculateMean` (tracker.go, file-backed variant). -/
noncomputable def calculateMean (gasPrices : List gasPriceData) : ℝ :=
  (gasPrices.foldl (fun sum d => sum + (d.Price : ℝ)) 0) / (gasPrices.length : ℝ)

/-- Embeds `calculateStdDev` (tracker.go, file-backed variant). -/
noncomputable def calculateStdDev (gasPrices : List gasPriceData) (mean : ℝ) : ℝ :=
  if gasPrices.length = 1 then 0
  else
    Real.sqrt
      ((gasPrices.foldl (fun s d => s + ((d.Price : ℝ) - mean) * ((d.Price : ℝ) - mean)) 0) /
        (((gasPrices.length : ℤ) - 1 : ℤ) : ℝ))

/-- Embeds `getPriceStats` (tracker.go, file-backed variant). -/
noncomputable def getPriceStats (gasPrices : List gasPriceData) : Except String priceStats :=
  if gasPrices.length = 0 then .error "no gas prices"
  else .ok ⟨calculateMean gasPrices, calculateStdDev gasPrices (calculateMean gasPrices)⟩

/-- Embeds `categorisePrice` (tracker.go, file-backed variant); its
`priceCategory` enumeration is identical to the package-level one and is
modelled by the same `PriceCategory` type. -/
noncomputable def categorisePrice (price : ℤ) (stats : priceStats) : PriceCategory :=
  if (price : ℝ) < stats.mean - stats.stddev then .Low
  else if (price : ℝ) > stats.mean + stats.stddev then .High
  else .Average

/-- Embeds the classification pipeline of `run` (tracker.go lines 29 to
56): the new observation is appended to the window first, statistics are
then computed over the already-appended window, and the fetched price is
classified against those statistics. -/
noncomputable def runFileCycleCategory (gasPrices : List gasPriceData) (gas now : ℤ) :
    Except String PriceCategory :=
  let appended := appendToFile gasPrices gas now
  match getPriceStats appended with
  | .error e => .error e
  | .ok stats => .ok (categorisePrice gas stats)

end FileTracker

/-- Folding a sum-accumulating step over a list adds the mapped sum to
the initial accumulator. -/
theorem foldl_add_map {α : Type} (f : α → ℝ) :
    ∀ (l : List α) (a : ℝ), l.foldl (fun s d => s + f d) a = a + (l.map f).sum := by
  intro l
  induction l with
  | nil => intro a; simp
  | cons d t ih => intro a; simp [ih (a + f d), add_assoc]

/-- Folding `oldestStep` from a non-empty accumulator yields a minimal
element of the accumulator together with the traversed list. -/
theorem findOldest_go :
    ∀ (l : List GasPriceData) (a : GasPriceData),
      ∃ b, l.foldl oldestStep (some a) = some b
        ∧ (b = a ∨ b ∈ l) ∧ b.Timestamp ≤ a.Timestamp
        ∧ ∀ y ∈ l, b.Timestamp ≤ y.Timestamp := by
  intro l
  induction l with
  | nil => intro a; exact ⟨a, rfl, Or.inl rfl, le_refl _, by simp⟩
  | cons d t ih =>
    intro a
    have hstep : oldestStep (some a) d
        = if d.Timestamp < a.Timestamp then some d else some a := rfl
    by_cases h : d.Timestamp < a.Timestamp
    · obtain ⟨b, hfold, hmem, hle, hall⟩ := ih d
      refine ⟨b, ?_, ?_, le_trans hle (le_of_lt h), ?_⟩
      · rw [List.foldl_cons, hstep, if_pos h]; exact hfold
      · rcases hmem with rfl | hb
        · exact Or.inr (List.mem_cons_self _ _)
        · exact Or.inr (List.mem_cons_of_mem _ hb)
      · intro y hy
        rcases List.mem_cons.mp hy with rfl | hy
        · exact hle
        · exact hall y hy
    · obtain ⟨b, hfold, hmem, hle, hall⟩ := ih a
      refine ⟨b, ?_, ?_, hle, ?_⟩
      · rw [List.foldl_cons, hstep, if_neg h]; exact hfold
      · rcases hmem with rfl | hb
        · exact Or.inl rfl
        · exact Or.inr (List.mem_cons_of_mem _ hb)
      · intro y hy
        rcases List.mem_cons.mp hy with rfl | hy
        · exact le_trans hle (not_lt.mp h)
        · exact hall y hy

/-- On a non-empty slice, `findOldest` returns a member whose timestamp
is less than or equal to every member's timestamp. -/
theorem findOldest_spec (l : List GasPriceData) (hl : l ≠ []) :
    ∃ b, findOldest l = some b ∧ b ∈ l ∧ ∀ y ∈ l, b.Timestamp ≤ y.Timestamp := by
  match l, hl with
  | a :: t, _ =>
    obtain ⟨b, hfold, hmem, hle, hall⟩ := findOldest_go t a
    refine ⟨b, ?_, ?_, ?_⟩
    · unfold findOldest
      rw [List.foldl_cons]
      exact hfold
    · rcases hmem with rfl | hb
      · exact List.mem_cons_self _ _
      · exact List.mem_cons_of_mem _ hb
    · intro y hy
      rcases List.mem_cons.mp hy with rfl | hy
      · exact hle
      · exact hall y hy

/-- Folding `mostRecentStep` from a non-empty accumulator yields a
maximal element of the accumulator together with the traversed list. -/
theorem mostRecent_go :
    ∀ (l : List GasPriceData) (a : GasPriceData),
      ∃ b, l.foldl mostRecentStep (some a) = some b
        ∧ (b = a ∨ b ∈ l) ∧ a.Timestamp ≤ b.Timestamp
        ∧ ∀ y ∈ l, y.Timestamp ≤ b.Timestamp := by
  intro l
  induction l with
  | nil => intro a; exact ⟨a, rfl, Or.inl rfl, le_refl _, by simp⟩
  | cons d t ih =>
    intro a
    have hstep : mostRecentStep (some a) d
        = if a.Timestamp < d.Timestamp then some d else some a := rfl
    by_cases h : a.Timestamp < d.Timestamp
    · obtain ⟨b, hfold, hmem, hle, hall⟩ := ih d
      refine ⟨b, ?_, ?_, le_trans (le_of_lt h) hle, ?_⟩
      · rw [List.foldl_cons, hstep, if_pos h]; exact hfold
      · rcases hmem with rfl | hb
        · exact Or.inr (List.mem_cons_self _ _)
        · exact Or.inr (List.mem_cons_of_mem _ hb)
      · intro y hy
        rcases List.mem_cons.mp hy with rfl | hy
        · exact hle
        · exact hall y hy
    · obtain ⟨b, hfold, hmem, hle, hall⟩ := ih a
      refine ⟨b, ?_, ?_, hle, ?_⟩
      · rw [List.foldl_cons, hstep, if_neg h]; exact hfold
      · rcases hmem with rfl | hb
        · exact Or.inl rfl
        · exact Or.inr (List.mem_cons_of_mem _ hb)
      · intro y hy
        rcases List.mem_cons.mp hy with rfl | hy
        · exact le_trans (not_lt.mp h) hle
        · exact hall y hy

/-- On a non-empty slice, `mostRecent` returns a member whose timestamp
is greater than or equal to every member's timestamp. -/
theorem mostRecent_spec (l : List GasPriceData) (hl : l ≠ []) :
    ∃ b, mostRecent l = some b ∧ b ∈ l ∧ ∀ y ∈ l, y.Timestamp ≤ b.Timestamp := by
  match l, hl with
  | a :: t, _ =>
    obtain ⟨b, hfold, hmem, hle, hall⟩ := mostRecent_go t a
    refine ⟨b, ?_, ?_, ?_⟩
    · unfold mostRecent
      rw [List.foldl_cons]
      exact hfold
    · rcases hmem with rfl | hb
      · exact List.mem_cons_self _ _
      · exact List.mem_cons_of_mem _ hb
    · intro y hy
      rcases List.mem_cons.mp hy with rfl | hy
      · exact hle
      · exact hall y hy

/-- The `mostRecent` scan returns `none` exactly on the empty slice. -/
theorem mostRecent_eq_none (l : List GasPriceData) : mostRecent l = none ↔ l = [] := by
  constructor
  · intro h
    by_contra hl
    obtain ⟨b, hb, -, -⟩ := mostRecent_spec l hl
    rw [h] at hb
    exact Option.noConfusion hb
  · rintro rfl; rfl

/-- Deleting by the timestamp of a member shortens the list by exactly
one element. -/
theorem deleteByTimestamp_length :
    ∀ (l : List GasPriceData) (x : GasPriceData), x ∈ l →
      (deleteByTimestamp x.Timestamp l).length + 1 = l.length := by
  intro l
  induction l with
  | nil => intro x hx; cases hx
  | cons d t ih =>
    intro x hx
    unfold deleteByTimestamp
    by_cases h : d.Timestamp = x.Timestamp
    · rw [if_pos h]; simp
    · rw [if_neg h]
      have hxt : x ∈ t := by
        rcases List.mem_cons.mp hx with rfl | hxt
        · exact absurd rfl h
        · exact hxt
      have := ih x hxt
      simp only [List.length_cons]
      omega

/-- Claim C2: for every price and every valid statistics value (stddev
nonnegative), `CategorisePrice` returns Low exactly when the price is
strictly below mean minus stddev, High exactly when strictly above mean
plus stddev, and Average otherwise (both boundaries included in
Average); the produced standard deviation is always a valid one, and the
function is total by construction. -/
theorem claim_C2 (p : ℤ) (m s : ℝ) (hs : 0 ≤ s) :
    (CategorisePrice p ⟨m, s⟩ = .Low ↔ (p : ℝ) < m - s)
    ∧ (CategorisePrice p ⟨m, s⟩ = .High ↔ m + s < (p : ℝ))
    ∧ (CategorisePrice p ⟨m, s⟩ = .Average ↔ (m - s ≤ (p : ℝ) ∧ (p : ℝ) ≤ m + s))
    ∧ (∀ (w : List GasPriceData) (mean : ℝ), 0 ≤ calculateStdDev w mean) := by
  refine ⟨?_, ?_, ?_, ?_⟩
  · unfold CategorisePrice
    constructor
    · intro h
      by_contra hlt
      simp only [not_lt] at hlt
      rw [if_neg (not_lt.mpr hlt)] at h
      split at h <;> simp_all
    · intro h; rw [if_pos h]
  · unfold CategorisePrice
    constructor
    · intro h
      by_contra hgt
      simp only [not_lt] at hgt
      by_cases hlow : (p : ℝ) < m - s
      · rw [if_pos hlow] at h; simp_all
      · rw [if_neg hlow, if_neg (by simpa using not_lt.mpr hgt)] at h; simp_all
    · intro h
      have hlow : ¬ (p : ℝ) < m - s := by push_neg; nlinarith
      rw [if_neg hlow, if_pos (by simpa using h)]
  · unfold CategorisePrice
    constructor
    · intro h
      by_cases hlow : (p : ℝ) < m - s
      · rw [if_pos hlow] at h; simp_all
      · by_cases hhigh : (p : ℝ) > m + s
        · rw [if_neg hlow, if_pos hhigh] at h; simp_all
        · exact ⟨not_lt.mp hlow, not_lt.mp hhigh⟩
    · intro h
      rw [if_neg (not_lt.mpr h.1), if_neg (by simpa using not_lt.mpr h.2)]
  · intro w mean
    unfold calculateStdDev
    split
    · exact le_refl 0
    · exact Real.sqrt_nonneg _

/-- Claim C2 witness: the characterization instantiated at price 5 and
statistics mean 3, stddev 1 (a valid value). -/
theorem claim_C2_witness :
    (0 : ℝ) ≤ 1
    ∧ ((CategorisePrice 5 ⟨3, 1⟩ = .Low ↔ (5 : ℤ) < ((3 : ℝ) - 1 : ℝ))
        ∧ (CategorisePrice 5 ⟨3, 1⟩ = .High ↔ (3 : ℝ) + 1 < ((5 : ℤ) : ℝ))
        ∧ (CategorisePrice 5 ⟨3, 1⟩ = .Average ↔
            ((3 : ℝ) - 1 ≤ ((5 : ℤ) : ℝ) ∧ ((5 : ℤ) : ℝ) ≤ (3 : ℝ) + 1))
        ∧ (∀ (w : List GasPriceData) (mean : ℝ), 0 ≤ calculateStdDev w mean)) :=
  ⟨by norm_num, claim_C2 5 3 1 (by norm_num)⟩

/-- Claim C7: a window of exactly one sample yields statistics with
stddev 0 and mean equal to that sample's price, so a new price is
classified Low exactly when strictly below that price, High exactly when
strictly above it, and Average exactly when equal to it. -/
theorem claim_C7 (d : GasPriceData) (p : ℤ) :
    getPriceStats [d] = .ok ⟨(d.Price : ℝ), 0⟩
    ∧ (CategorisePrice p ⟨(d.Price : ℝ), 0⟩ = .Low ↔ (p : ℝ) < (d.Price : ℝ))
    ∧ (CategorisePrice p ⟨(d.Price : ℝ), 0⟩ = .High ↔ (d.Price : ℝ) < (p : ℝ))
    ∧ (CategorisePrice p ⟨(d.Price : ℝ), 0⟩ = .Average ↔ p = d.Price) := by
  have hmean : calculateMean [d] = (d.Price : ℝ) := by
    simp [calculateMean]
  have hstats : getPriceStats [d] = .ok ⟨(d.Price : ℝ), 0⟩ := by
    simp [getPriceStats, calculateStdDev, hmean]
  obtain ⟨h1, h2, h3, _⟩ := claim_C2 p (d.Price : ℝ) 0 (le_refl 0)
  refine ⟨hstats, by simpa using h1, by simpa using h2, ?_⟩
  rw [h3]
  constructor
  · rintro ⟨ha, hb⟩
    have ha2 : (d.Price : ℝ) ≤ (p : ℝ) := by linarith
    have hb2 : (p : ℝ) ≤ (d.Price : ℝ) := by linarith
    exact_mod_cast le_antisymm hb2 ha2
  · rintro rfl; constructor <;> simp

/-- Claim C8: `getPriceStats` fails with the insufficient-data error
exactly on the empty window, and returns a statistics value on every
non-empty window. -/
theorem claim_C8 (w : List GasPriceData) :
    (getPriceStats w = .error "no gas prices" ↔ w = [])
    ∧ (w ≠ [] → ∃ stats, getPriceStats w = .ok stats) := by
  constructor
  · unfold getPriceStats
    constructor
    · intro h
      by_cases hw : w.length = 0
      · exact List.length_eq_zero.mp hw
      · rw [if_neg hw] at h; exact absurd h (by simp)
    · rintro rfl; simp
  · intro hw
    unfold getPriceStats
    rw [if_neg (by simpa using List.length_eq_zero.not.mpr hw)]
    exact ⟨_, rfl⟩

/-- Claim C8 witness: a concrete singleton window is non-empty and
produces a statistics value. -/
theorem claim_C8_witness :
    ([⟨5, 3, .Average⟩] : List GasPriceData) ≠ []
    ∧ ∃ stats, getPriceStats [⟨5, 3, .Average⟩] = .ok stats :=
  ⟨by simp, (claim_C8 [⟨5, 3, .Average⟩]).2 (by simp)⟩

/-- Claim C9: category deserialization accepts exactly the three labels,
mapping each to its constant; every other string yields the
construction-time error, and the unmarshal step leaves the target
category untouched on error (no silent default substitution). -/
theorem claim_C9 :
    parsePriceCategory "High" = (.High, none)
    ∧ parsePriceCategory "Average" = (.Average, none)
    ∧ parsePriceCategory "Low" = (.Low, none)
    ∧ (∀ s : String, s ≠ "High" → s ≠ "Average" → s ≠ "Low" →
        (parsePriceCategory s).2 = some "unexpected price category"
        ∧ ∀ p, UnmarshalDynamoDBAttributeValue (some s) p = (p, some "unexpected price category"))
    ∧ (∀ c p, UnmarshalDynamoDBAttributeValue (some (categoryLabel c)) p = (c, none)) := by
  refine ⟨rfl, rfl, rfl, ?_, ?_⟩
  · intro s h1 h2 h3
    have hparse : parsePriceCategory s = (.Average, some "unexpected price category") := by
      unfold parsePriceCategory
      rw [if_neg h1, if_neg h2, if_neg h3]
    constructor
    · rw [hparse]
    · intro p
      simp [UnmarshalDynamoDBAttributeValue, hparse]
  · intro c p
    cases c <;> rfl

/-- Claim C9 witness: the unmapped label "Banana" is rejected with the
construction-time error and the prior category value Low survives the
failed unmarshal untouched. -/
theorem claim_C9_witness :
    ("Banana" : String) ≠ "High" ∧ ("Banana" : String) ≠ "Average"
    ∧ ("Banana" : String) ≠ "Low"
    ∧ (parsePriceCategory "Banana").2 = some "unexpected price category"
    ∧ UnmarshalDynamoDBAttributeValue (some "Banana") .Low
        = (.Low, some "unexpected price category") := by
  have h := (claim_C9.2.2.2.1 "Banana" (by decide) (by decide) (by decide))
  exact ⟨by decide, by decide, by decide, h.1, h.2 .Low⟩

/-- Claim C10: the integer-level string conversion maps the three
enumeration constants 0, 1, 2 to exactly "High", "Average", "Low", so
the panic branch is unreachable for them, and it reaches the panic
branch (modelled as `none`) exactly on the integers outside the
enumeration. -/
theorem claim_C10 :
    priceCategoryString 0 = some "High"
    ∧ priceCategoryString 1 = some "Average"
    ∧ priceCategoryString 2 = some "Low"
    ∧ (∀ c, priceCategoryString (categoryCode c) = some (categoryLabel c))
    ∧ (∀ n : ℤ, n ≠ 0 → n ≠ 1 → n ≠ 2 → priceCategoryString n = none) := by
  refine ⟨rfl, rfl, rfl, ?_, ?_⟩
  · intro c; cases c <;> rfl
  · intro n h0 h1 h2
    unfold priceCategoryString
    rw [if_neg h0, if_neg h1, if_neg h2]

/-- Claim C10 witness: the integer 7 lies outside the enumeration and
hits the panic branch. -/
theorem claim_C10_witness :
    (7 : ℤ) ≠ 0 ∧ (7 : ℤ) ≠ 1 ∧ (7 : ℤ) ≠ 2 ∧ priceCategoryString 7 = none :=
  ⟨by decide, by decide, by decide,
    claim_C10.2.2.2.2 7 (by decide) (by decide) (by decide)⟩

/-- Claim C3: a notification fires if and only if a previous most-recent
sample exists (equivalently the pre-cycle window is non-empty), the new
category is not Average, and the new category differs from that sample's
category; the most-recent sample carries a maximal timestamp; a High to
Low transition fires; no notification fires when the new category equals
the previous one or equals Average. -/
theorem claim_C3 :
    (∀ (category : PriceCategory) (w : List GasPriceData),
      shouldNotify category (getLastCategory w) = true ↔
        w ≠ [] ∧ category ≠ .Average ∧
          ∃ prev, getLastCategory w = some prev ∧ category ≠ prev)
    ∧ (∀ w : List GasPriceData, (getLastCategory w).isSome = true ↔ w ≠ [])
    ∧ (∀ (w : List GasPriceData) (d : GasPriceData), mostRecent w = some d →
        d ∈ w ∧ ∀ y ∈ w, y.Timestamp ≤ d.Timestamp)
    ∧ shouldNotify .Low (getLastCategory [⟨10, 0, .High⟩]) = true
    ∧ (∀ lc, shouldNotify .Average lc = false)
    ∧ (∀ c, shouldNotify c (some c) = false) := by
  refine ⟨?_, ?_, ?_, rfl, ?_, ?_⟩
  · intro category w
    cases hm : mostRecent w with
    | none =>
      have hw := (mostRecent_eq_none w).mp hm
      subst hw
      simp [shouldNotify, getLastCategory, mostRecent]
    | some d =>
      have hw : w ≠ [] := by
        intro h
        subst h
        exact Option.noConfusion hm
      simp [shouldNotify, getLastCategory, hm, hw, bne_iff_ne]
  · intro w
    unfold getLastCategory
    cases hm : mostRecent w with
    | none =>
      have hw := (mostRecent_eq_none w).mp hm
      subst hw
      simp [mostRecent]
    | some d =>
      have hw : w ≠ [] := by
        intro h
        subst h
        exact Option.noConfusion hm
      simp [hw]
  · intro w d hm
    have hw : w ≠ [] := by
      intro h
      subst h
      exact Option.noConfusion hm
    obtain ⟨b, hb, hbmem, hball⟩ := mostRecent_spec w hw
    have hdb : d = b := by
      have := hm.symm.trans hb
      exact Option.some.inj this
    subst hdb
    exact ⟨hbmem, hball⟩
  · intro lc
    simp [shouldNotify]
  · intro c
    simp [shouldNotify]

/-- Claim C3 witness: the most-recent lookup instantiated on a concrete
singleton window, with its hypothesis discharged by evaluation. -/
theorem claim_C3_witness :
    mostRecent [(⟨10, 0, .High⟩ : GasPriceData)] = some ⟨10, 0, .High⟩
    ∧ (⟨10, 0, .High⟩ : GasPriceData) ∈ [(⟨10, 0, .High⟩ : GasPriceData)]
    ∧ ∀ y ∈ [(⟨10, 0, .High⟩ : GasPriceData)],
        y.Timestamp ≤ (⟨10, 0, .High⟩ : GasPriceData).Timestamp :=
  ⟨rfl, (claim_C3.2.2.1 [⟨10, 0, .High⟩] ⟨10, 0, .High⟩ rfl).1,
    (claim_C3.2.2.1 [⟨10, 0, .High⟩] ⟨10, 0, .High⟩ rfl).2⟩

set_option maxRecDepth 4000 in
/-- Claim C4 counterexample: a 168-sample window whose front element
does not carry the smallest timestamp.  The file-based append
(`appendToFile`, tracker.go) evicts the front element (timestamp 5) even
though a member with a strictly smaller timestamp (0) is present, so the
evicted sample is not the minimal-timestamp one. -/
theorem claim_C4_cex :
    ((⟨0, 5⟩ : FileTracker.gasPriceData) :: List.replicate 167 ⟨0, 0⟩).length ≤ maxNumGasPrices
    ∧ FileTracker.appendToFile ((⟨0, 5⟩ : FileTracker.gasPriceData) :: List.replicate 167 ⟨0, 0⟩) 1 6
        = List.replicate 167 (⟨0, 0⟩ : FileTracker.gasPriceData) ++ [⟨1, 6⟩]
    ∧ (⟨0, 5⟩ : FileTracker.gasPriceData)
        ∉ FileTracker.appendToFile ((⟨0, 5⟩ : FileTracker.gasPriceData) :: List.replicate 167 ⟨0, 0⟩) 1 6
    ∧ ∃ y ∈ ((⟨0, 5⟩ : FileTracker.gasPriceData) :: List.replicate 167 ⟨0, 0⟩),
        y.Timestamp < (⟨0, 5⟩ : FileTracker.gasPriceData).Timestamp := by
  have h169 : (((⟨0, 5⟩ : FileTracker.gasPriceData) :: List.replicate 167 ⟨0, 0⟩)
      ++ [(⟨1, 6⟩ : FileTracker.gasPriceData)]).length = 169 := by
    simp
  have happ : FileTracker.appendToFile
      ((⟨0, 5⟩ : FileTracker.gasPriceData) :: List.replicate 167 ⟨0, 0⟩) 1 6
      = List.replicate 167 (⟨0, 0⟩ : FileTracker.gasPriceData) ++ [⟨1, 6⟩] := by
    simp only [FileTracker.appendToFile, h169]
    norm_num [maxNumGasPrices, List.drop_one]
  refine ⟨by simp [maxNumGasPrices], happ, ?_, ⟨⟨0, 0⟩, ?_, ?_⟩⟩
  · rw [happ]
    simp [List.mem_append, List.mem_replicate, FileTracker.gasPriceData.mk.injEq]
  · simp [List.mem_replicate]
  · norm_num

/-- Claim C4 (amended): for every window of size at most the capacity
(168), appending one new sample keeps the post-append size at most the
capacity and removes at most one existing sample.  The DynamoDB append
(`updateGasPrices`) always evicts a sample carrying the smallest
timestamp of the pre-eviction set; the file-based append
(`appendToFile`) evicts the positionally first element, which carries
the smallest timestamp whenever the window is ordered by timestamp. -/
theorem claim_C4_amended :
    (∀ (w : List GasPriceData) (c : GasPriceData), w.length ≤ maxNumGasPrices →
      ∃ w2, updateGasPrices w c = .ok w2 ∧ w2.length ≤ maxNumGasPrices ∧
        (w2 = w ++ [c] ∨
          ∃ x ∈ w, (∀ y ∈ w, x.Timestamp ≤ y.Timestamp) ∧
            w2 = deleteByTimestamp x.Timestamp w ++ [c] ∧ w2.length = w.length))
    ∧ (∀ (w : List FileTracker.gasPriceData) (p t : ℤ), w.length ≤ maxNumGasPrices →
        (FileTracker.appendToFile w p t).length ≤ maxNumGasPrices ∧
          (FileTracker.appendToFile w p t = w ++ [⟨p, t⟩] ∨
            ∃ hd tl, w = hd :: tl ∧ FileTracker.appendToFile w p t = tl ++ [⟨p, t⟩] ∧
              (List.Pairwise (fun u v => u.Timestamp ≤ v.Timestamp) w →
                ∀ y ∈ w, hd.Timestamp ≤ y.Timestamp))) := by
  constructor
  · intro w c hw
    by_cases hfull : maxNumGasPrices ≤ w.length
    · have hlen : w.length = maxNumGasPrices := le_antisymm hw hfull
      have hne : w ≠ [] := by
        intro h
        rw [h] at hlen
        exact absurd hlen (by decide)
      obtain ⟨x, hfind, hmem, hmin⟩ := findOldest_spec w hne
      have hdel := deleteByTimestamp_length w x hmem
      refine ⟨deleteByTimestamp x.Timestamp w ++ [c], ?_, ?_,
        Or.inr ⟨x, hmem, hmin, rfl, ?_⟩⟩
      · unfold updateGasPrices deleteOldestGasPrice
        rw [if_pos hfull, hfind]
      · simp only [List.length_append, List.length_cons, List.length_nil]
        omega
      · simp only [List.length_append, List.length_cons, List.length_nil]
        omega
    · push_neg at hfull
      refine ⟨w ++ [c], ?_, ?_, Or.inl rfl⟩
      · unfold updateGasPrices
        rw [if_neg (not_le.mpr hfull)]
      · simp only [List.length_append, List.length_cons, List.length_nil]
        omega
  · intro w p t hw
    by_cases hfull : maxNumGasPrices < (w ++ [(⟨p, t⟩ : FileTracker.gasPriceData)]).length
    · have hlen : w.length = maxNumGasPrices := by
        simp only [List.length_append, List.length_cons, List.length_nil] at hfull
        omega
      obtain ⟨hd, tl, rfl⟩ : ∃ hd tl, w = hd :: tl := by
        cases w with
        | nil => exact absurd hlen (by decide)
        | cons a b => exact ⟨a, b, rfl⟩
      have hdropn : ((hd :: tl) ++ [(⟨p, t⟩ : FileTracker.gasPriceData)]).length
          - maxNumGasPrices = 1 := by
        simp only [List.length_append, List.length_cons, List.length_nil]
        simp only [List.length_cons] at hlen
        omega
      have happ : FileTracker.appendToFile (hd :: tl) p t = tl ++ [⟨p, t⟩] := by
        simp only [FileTracker.appendToFile]
        rw [if_pos hfull, hdropn]
        rw [List.cons_append, List.drop_one, List.tail_cons]
      refine ⟨?_, Or.inr ⟨hd, tl, rfl, happ, ?_⟩⟩
      · rw [happ]
        simp only [List.length_append, List.length_cons, List.length_nil]
        simp only [List.length_cons] at hlen
        omega
      · intro hsorted y hy
        rcases List.mem_cons.mp hy with rfl | hy
        · exact le_refl _
        · exact (List.pairwise_cons.mp hsorted).1 y hy
    · have happ : FileTracker.appendToFile w p t = w ++ [⟨p, t⟩] := by
        simp only [FileTracker.appendToFile]
        rw [if_neg hfull]
      refine ⟨?_, Or.inl happ⟩
      rw [happ]
      simp only [not_lt, List.length_append, List.length_cons, List.length_nil] at hfull
      simp only [List.length_append, List.length_cons, List.length_nil]
      omega

/-- Claim C4 witness: both append operations applied to concrete
singleton windows, the size hypothesis discharged by evaluation. -/
theorem claim_C4_witness :
    ([(⟨5, 0, .Average⟩ : GasPriceData)].length ≤ maxNumGasPrices)
    ∧ (∃ w2, updateGasPrices [⟨5, 0, .Average⟩] ⟨6, 1, .Average⟩ = .ok w2
        ∧ w2.length ≤ maxNumGasPrices)
    ∧ ([(⟨7, 0⟩ : FileTracker.gasPriceData)].length ≤ maxNumGasPrices)
    ∧ (FileTracker.appendToFile [⟨7, 0⟩] 8 1).length ≤ maxNumGasPrices := by
  have h1 : ([(⟨5, 0, .Average⟩ : GasPriceData)]).length ≤ maxNumGasPrices := by
    simp [maxNumGasPrices]
  have h2 : ([(⟨7, 0⟩ : FileTracker.gasPriceData)]).length ≤ maxNumGasPrices := by
    simp [maxNumGasPrices]
  obtain ⟨w2, hok, hlen, -⟩ := claim_C4_amended.1 [⟨5, 0, .Average⟩] ⟨6, 1, .Average⟩ h1
  exact ⟨h1, ⟨w2, hok, hlen⟩, h2, (claim_C4_amended.2 [⟨7, 0⟩] 8 1 h2).1⟩

/-- Claim C5: on every non-empty window, `getPriceStats` returns the
mean equal to the sum of the prices divided by the count, and the
standard deviation equal to 0 for a single-sample window and otherwise
to the square root of the sum of squared deviations from that mean
divided by count minus one; the embedded definitions accumulate in two
passes, mean first and squared deviations second, exactly as the
source loops do. -/
theorem claim_C5 (w : List GasPriceData) (hw : w ≠ []) :
    ∃ stats, getPriceStats w = .ok stats
      ∧ stats.Mean = (w.map (fun d => (d.Price : ℝ))).sum / (w.length : ℝ)
      ∧ (w.length = 1 → stats.Stddev = 0)
      ∧ (2 ≤ w.length → stats.Stddev =
          Real.sqrt ((w.map (fun d => ((d.Price : ℝ) - stats.Mean) ^ 2)).sum
            / ((w.length : ℝ) - 1))) := by
  have hlen : ¬ w.length = 0 := fun h => hw (List.length_eq_zero.mp h)
  refine ⟨⟨calculateMean w, calculateStdDev w (calculateMean w)⟩, ?_, ?_, ?_, ?_⟩
  · unfold getPriceStats
    rw [if_neg hlen]
  · unfold calculateMean
    rw [foldl_add_map, zero_add]
  · intro h1
    unfold calculateStdDev
    rw [if_pos h1]
  · intro h2
    have hne1 : w.length ≠ 1 := by omega
    unfold calculateStdDev
    rw [if_neg hne1, foldl_add_map, zero_add]
    simp only [pow_two]
    push_cast
    rfl

/-- Claim C5 witness: the statistics characterization instantiated at a
concrete two-sample window, the non-emptiness hypothesis discharged by
evaluation. -/
theorem claim_C5_witness :
    ([(⟨1, 0, .Average⟩ : GasPriceData), ⟨3, 1, .Average⟩] : List GasPriceData) ≠ []
    ∧ ∃ stats,
        getPriceStats [⟨1, 0, .Average⟩, ⟨3, 1, .Average⟩] = .ok stats
        ∧ stats.Mean = (([(⟨1, 0, .Average⟩ : GasPriceData), ⟨3, 1, .Average⟩]).map
            (fun d => (d.Price : ℝ))).sum
              / ((([(⟨1, 0, .Average⟩ : GasPriceData), ⟨3, 1, .Average⟩]).length : ℝ))
        ∧ (([(⟨1, 0, .Average⟩ : GasPriceData), ⟨3, 1, .Average⟩]).length = 1 →
            stats.Stddev = 0)
        ∧ (2 ≤ ([(⟨1, 0, .Average⟩ : GasPriceData), ⟨3, 1, .Average⟩]).length →
            stats.Stddev =
              Real.sqrt ((([(⟨1, 0, .Average⟩ : GasPriceData), ⟨3, 1, .Average⟩]).map
                (fun d => ((d.Price : ℝ) - stats.Mean) ^ 2)).sum
                / ((([(⟨1, 0, .Average⟩ : GasPriceData), ⟨3, 1, .Average⟩]).length : ℝ) - 1))) :=
  ⟨by simp, claim_C5 [⟨1, 0, .Average⟩, ⟨3, 1, .Average⟩] (by simp)⟩

/-- Statistics of a one-sample window: mean is the sample's price and
the standard deviation is zero. -/
theorem getPriceStats_singleton (d : GasPriceData) :
    getPriceStats [d] = .ok ⟨(d.Price : ℝ), 0⟩ := by
  have hmean : calculateMean [d] = (d.Price : ℝ) := by
    simp [calculateMean]
  simp [getPriceStats, calculateStdDev, hmean]

/-- Statistics of the concrete window holding one High sample of price
10 at timestamp 0. -/
theorem getPriceStats_high10 :
    getPriceStats [(⟨10, 0, .High⟩ : GasPriceData)] = .ok ⟨10, 0⟩ := by
  rw [getPriceStats_singleton]
  simp only [Except.ok.injEq, PriceStats.mk.injEq]
  norm_num

/-- Against statistics with mean 10 and stddev 0, the price 9 is
classified Low. -/
theorem categorise_nine_ten : CategorisePrice 9 ⟨10, 0⟩ = .Low := by
  simp only [CategorisePrice]
  rw [if_pos (by push_cast; norm_num)]

/-- A full successful cycle on the singleton High window with fetched
price 9: the transition fires, delivery succeeds, and the Low sample is
appended and persisted. -/
theorem runCycle_high10_ok :
    runCycle [(⟨10, 0, .High⟩ : GasPriceData)] 9 1 true
      = ⟨none, true, some [⟨10, 0, .High⟩, ⟨9, 1, .Low⟩]⟩ := by
  simp only [runCycle, getPriceStats_high10, categorise_nine_ten]
  rfl

/-- Statistics of a one-sample window in the file-backed variant. -/
theorem fileStats_singleton (d : FileTracker.gasPriceData) :
    FileTracker.getPriceStats [d] = .ok ⟨(d.Price : ℝ), 0⟩ := by
  have hmean : FileTracker.calculateMean [d] = (d.Price : ℝ) := by
    simp [FileTracker.calculateMean]
  simp [FileTracker.getPriceStats, FileTracker.calculateStdDev, hmean]

/-- Claim C1 counterexample: on the singleton High window with fetched
price 9 the transition to Low fires; when delivery fails, `run`
(tracker/tracker.go) returns the notification error and never reaches
the append/persist step, so the new sample is not recorded — contrary
to the claim that the append/persist step still executes. -/
theorem claim_C1_cex :
    getPriceStats [(⟨10, 0, .High⟩ : GasPriceData)] = .ok ⟨10, 0⟩
    ∧ shouldNotify (CategorisePrice 9 ⟨10, 0⟩)
        (getLastCategory [(⟨10, 0, .High⟩ : GasPriceData)]) = true
    ∧ runCycle [(⟨10, 0, .High⟩ : GasPriceData)] 9 1 false
        = ⟨some "while notifying of price category change", false, none⟩ := by
  refine ⟨getPriceStats_high10, ?_, ?_⟩
  · rw [categorise_nine_ten]; rfl
  · simp only [runCycle, getPriceStats_high10, categorise_nine_ten]
    rfl

/-- Claim C1 (amended): when the transition condition fires and
notification delivery fails, the cycle surfaces the delivery failure as
its terminal error and aborts: the new sample is neither appended nor
persisted, and the cycle reports no notification sent. -/
theorem claim_C1_amended (w : List GasPriceData) (gas now : ℤ) (stats : PriceStats)
    (hstats : getPriceStats w = .ok stats)
    (hfire : shouldNotify (CategorisePrice gas stats) (getLastCategory w) = true) :
    (runCycle w gas now false).err = some "while notifying of price category change"
    ∧ (runCycle w gas now false).persisted = none
    ∧ (runCycle w gas now false).notified = false := by
  have hrun : runCycle w gas now false
      = ⟨some "while notifying of price category change", false, none⟩ := by
    simp only [runCycle, hstats, hfire]
    simp
  rw [hrun]
  exact ⟨rfl, rfl, rfl⟩

/-- Claim C1 witness: the amended claim instantiated on the singleton
High window with fetched price 9, both hypotheses discharged by
evaluation. -/
theorem claim_C1_witness :
    getPriceStats [(⟨10, 0, .High⟩ : GasPriceData)] = .ok ⟨10, 0⟩
    ∧ shouldNotify (CategorisePrice 9 ⟨10, 0⟩)
        (getLastCategory [(⟨10, 0, .High⟩ : GasPriceData)]) = true
    ∧ ((runCycle [(⟨10, 0, .High⟩ : GasPriceData)] 9 1 false).err
          = some "while notifying of price category change"
        ∧ (runCycle [(⟨10, 0, .High⟩ : GasPriceData)] 9 1 false).persisted = none
        ∧ (runCycle [(⟨10, 0, .High⟩ : GasPriceData)] 9 1 false).notified = false) :=
  ⟨getPriceStats_high10, by rw [categorise_nine_ten]; rfl,
    claim_C1_amended [⟨10, 0, .High⟩] 9 1 ⟨10, 0⟩ getPriceStats_high10
      (by rw [categorise_nine_ten]; rfl)⟩

/-- Claim C6 counterexample: in the file-backed variant (tracker.go,
`run`) the new sample is appended before statistics are computed.  On
the one-sample window of price 10 with fetched price 16, the cycle
classifies 16 as Average because the statistics (mean 13, stddev sqrt
18) already include the new sample, whereas classification against the
pre-append snapshot (mean 10, stddev 0) yields High. -/
theorem claim_C6_cex :
    FileTracker.runFileCycleCategory [(⟨10, 0⟩ : FileTracker.gasPriceData)] 16 1
        = .ok .Average
    ∧ FileTracker.getPriceStats [(⟨10, 0⟩ : FileTracker.gasPriceData)] = .ok ⟨10, 0⟩
    ∧ FileTracker.categorisePrice 16 ⟨10, 0⟩ = .High := by
  have hnn : (0 : ℝ) ≤ Real.sqrt 18 := Real.sqrt_nonneg _
  have hs3 : (3 : ℝ) ≤ Real.sqrt 18 := by
    have h9 : Real.sqrt 9 ≤ Real.sqrt 18 := Real.sqrt_le_sqrt (by norm_num)
    have h3 : Real.sqrt 9 = 3 := by
      rw [show (9 : ℝ) = 3 ^ 2 by norm_num]
      exact Real.sqrt_sq (by norm_num)
    linarith
  have happ : FileTracker.appendToFile [(⟨10, 0⟩ : FileTracker.gasPriceData)] 16 1
      = [⟨10, 0⟩, ⟨16, 1⟩] := by
    simp [FileTracker.appendToFile, maxNumGasPrices]
  have hmean2 : FileTracker.calculateMean [(⟨10, 0⟩ : FileTracker.gasPriceData), ⟨16, 1⟩]
      = 13 := by
    simp [FileTracker.calculateMean]
    norm_num
  have hsd2 : FileTracker.calculateStdDev [(⟨10, 0⟩ : FileTracker.gasPriceData), ⟨16, 1⟩] 13
      = Real.sqrt 18 := by
    simp only [FileTracker.calculateStdDev]
    rw [if_neg (by simp)]
    congr 1
    push_cast
    norm_num
  have hstats2 : FileTracker.getPriceStats [(⟨10, 0⟩ : FileTracker.gasPriceData), ⟨16, 1⟩]
      = .ok ⟨13, Real.sqrt 18⟩ := by
    simp [FileTracker.getPriceStats, hmean2, hsd2]
  have hcat2 : FileTracker.categorisePrice 16 ⟨13, Real.sqrt 18⟩ = .Average := by
    have c1 : ¬ ((16 : ℤ) : ℝ) < (13 : ℝ) - Real.sqrt 18 := by
      push_cast
      exact not_lt.mpr (by linarith)
    have c2 : ¬ ((16 : ℤ) : ℝ) > (13 : ℝ) + Real.sqrt 18 := by
      push_cast
      exact not_lt.mpr (by linarith)
    simp only [FileTracker.categorisePrice]
    rw [if_neg c1, if_neg c2]
  refine ⟨?_, ?_, ?_⟩
  · simp only [FileTracker.runFileCycleCategory, happ, hstats2]
    rw [hcat2]
  · rw [fileStats_singleton]
    simp only [Except.ok.injEq, FileTracker.priceStats.mk.injEq]
    norm_num
  · have c1 : ¬ ((16 : ℤ) : ℝ) < (10 : ℝ) - 0 := by
      push_cast
      norm_num
    have c2 : ((16 : ℤ) : ℝ) > (10 : ℝ) + 0 := by
      push_cast
      norm_num
    simp only [FileTracker.categorisePrice]
    rw [if_neg c1, if_pos c2]

/-- Claim C6 (amended): in the DynamoDB tracker (tracker/tracker.go,
`run`), the statistics used to classify the fetched price are computed
over the window snapshot as loaded, before the new sample is appended,
and whatever window gets persisted is exactly the pre-cycle window
updated with the sample classified against those pre-append statistics;
in the file-backed variant (tracker.go, `run`) the new sample is
appended to the window before statistics are computed, so there the
statistics include the current observation. -/
theorem claim_C6_amended :
    (∀ (w : List GasPriceData) (gas now : ℤ) (notifyOk : Bool) (w2 : List GasPriceData),
      (runCycle w gas now notifyOk).persisted = some w2 →
      ∃ stats, getPriceStats w = .ok stats
        ∧ updateGasPrices w ⟨gas, now, CategorisePrice gas stats⟩ = .ok w2)
    ∧ (∀ (w : List FileTracker.gasPriceData) (gas now : ℤ),
        FileTracker.runFileCycleCategory w gas now
          = (FileTracker.getPriceStats (FileTracker.appendToFile w gas now)).map
            (fun stats => FileTracker.categorisePrice gas stats)) := by
  constructor
  · intro w gas now notifyOk w2 hpers
    cases hstats : getPriceStats w with
    | error e =>
      exfalso
      simp only [runCycle, hstats] at hpers
      exact Option.noConfusion hpers
    | ok stats =>
      refine ⟨stats, rfl, ?_⟩
      simp only [runCycle, hstats] at hpers
      by_cases hif : (shouldNotify (CategorisePrice gas stats) (getLastCategory w)
          && !notifyOk) = true
      · rw [if_pos hif] at hpers
        exact absurd hpers (by simp)
      · rw [if_neg hif] at hpers
        cases hupd : updateGasPrices w ⟨gas, now, CategorisePrice gas stats⟩ with
        | error e =>
          rw [hupd] at hpers
          exact absurd hpers (by simp)
        | ok newPrices =>
          rw [hupd] at hpers
          simp only [Option.some.injEq] at hpers
          rw [hpers]
  · intro w gas now
    simp only [FileTracker.runFileCycleCategory]
    cases h : FileTracker.getPriceStats (FileTracker.appendToFile w gas now) with
    | error e => rfl
    | ok stats => rfl

/-- Claim C6 witness: the DynamoDB-side property instantiated on a full
successful cycle over the singleton High window, the persistence
hypothesis discharged by evaluation. -/
theorem claim_C6_witness :
    (runCycle [(⟨10, 0, .High⟩ : GasPriceData)] 9 1 true).persisted
        = some [⟨10, 0, .High⟩, ⟨9, 1, .Low⟩]
    ∧ ∃ stats, getPriceStats [(⟨10, 0, .High⟩ : GasPriceData)] = .ok stats
        ∧ updateGasPrices [(⟨10, 0, .High⟩ : GasPriceData)]
            ⟨9, 1, CategorisePrice 9 stats⟩ = .ok [⟨10, 0, .High⟩, ⟨9, 1, .Low⟩] :=
  ⟨by rw [runCycle_high10_ok],
    claim_C6_amended.1 [⟨10, 0, .High⟩] 9 1 true [⟨10, 0, .High⟩, ⟨9, 1, .Low⟩]
      (by rw [runCycle_high10_ok])⟩

end GasTracker
